import Mathlib

/-!
Shallow embedding of the task-management backend (Express + Mongoose):
the Task model (`models/Task.js`) and the task route handlers
(`routes/tasks.js`), together with the parts of the validation
middleware (`middleware/validation.js`) the handlers rely on.

Conventions of the embedding:
- User ids and task ids are `Nat` (Mongo ObjectIds are opaque; only
  equality is ever used on them).
- Dates (`createdAt`, `updatedAt`, `dueDate`, "now") are `Nat`
  timestamps; `value > new Date()` becomes `now < value`.
- The credential store is the list of existing user ids: `User.findById`
  succeeding is `userExists`.  Mongoose `populate` of a reference
  yields `null` exactly when the referenced user id is absent, which is
  why the handlers' dereferences of populated fields are modelled as
  guarded by `userExists`.
- `req.user` is the already-authenticated caller: the claims under
  study all concern post-authentication behaviour.  The admin test in
  the source is `req.user.role !== 'admin'` on a string role, kept as a
  `String` comparison here.
- Each handler becomes a function from the store (and the request data)
  to a result value mirroring the handler's HTTP outcome, paired with
  the store after the call.  The generic `catch`-block of each handler
  (HTTP 500) appears as an explicit `serverError` result where a
  `throw` is reachable (a dangling populated reference dereferenced, or
  a Mongoose schema-validation failure on save/update).
-/

namespace ScalableApi

/-- The `status` enum of the task schema: `['pending', 'in-progress', 'completed']`. -/
inductive Status
  | pending
  | inProgress
  | completed
deriving DecidableEq, Repr

/-- The `priority` enum of the task schema: `['low', 'medium', 'high']`. -/
inductive Priority
  | low
  | medium
  | high
deriving DecidableEq, Repr

/-- A stored task document (`models/Task.js`), with the `timestamps: true`
fields `createdAt`/`updatedAt`. -/
structure Task where
  tid : Nat
  title : String
  description : String
  status : Status
  priority : Priority
  dueDate : Option Nat
  assignedTo : Nat
  createdBy : Nat
  createdAt : Nat
  updatedAt : Nat
deriving DecidableEq, Repr

/-- The authenticated caller attached to the request by the `authenticate`
middleware (`req.user`): its id and its role string. -/
structure Caller where
  uid : Nat
  role : String
deriving DecidableEq, Repr

/-- The persistent state the task routes touch: the task collection and the
set of existing user ids (the credential store, as far as reference
checks and `populate` are concerned). -/
structure DB where
  tasks : List Task
  users : List Nat
deriving DecidableEq, Repr

/-- Lookup `User.findById(u)` returning a document (also: `populate` of a user
reference returning non-`null`). -/
def userExists (db : DB) (u : Nat) : Bool :=
  db.users.contains u

/-- Lookup `Task.findById(id)`. -/
def findTask (db : DB) (id : Nat) : Option Task :=
  db.tasks.find? (fun t => t.tid == id)

/-- Evaluation of `parseInt(x) || d`: an absent (or non-numeric) query parameter falls back
to the default, and so does a parsed `0`, which is falsy in JS. -/
def parseOr (x : Option Nat) (d : Nat) : Nat :=
  match x with
  | none => d
  | some n => if n == 0 then d else n

/-- The `$or: [{assignedTo: me}, {createdBy: me}]` visibility filter that the
list and stats handlers install for non-admin callers (admin callers get the
empty filter, which matches everything). -/
def visibleTo (c : Caller) (t : Task) : Bool :=
  c.role == "admin" || t.assignedTo == c.uid || t.createdBy == c.uid

/-- Query string of `GET /tasks` (after `validatePagination` and the
swagger-documented enum constraints). -/
structure ListQuery where
  page : Option Nat
  limit : Option Nat
  status : Option Status
  priority : Option Priority
  assignedTo : Option Nat
deriving Repr

/-- The Mongo filter object built by the list handler: the non-admin `$or`
clause ANDed with the optional `status`/`priority`/`assignedTo` equality
filters. -/
def matchesFilter (c : Caller) (q : ListQuery) (t : Task) : Bool :=
  visibleTo c t
    && q.status.all (fun s => t.status == s)
    && q.priority.all (fun p => t.priority == p)
    && q.assignedTo.all (fun a => t.assignedTo == a)

/-- Insert a task into a list kept in descending `createdAt` order. -/
def insertDesc (t : Task) : List Task → List Task
  | [] => [t]
  | u :: us => if u.createdAt ≤ t.createdAt then t :: u :: us else u :: insertDesc t us

/-- Sorting `.sort({ createdAt: -1 })`: most recent first.  (The store does not
specify the relative order of ties; the embedding fixes one.) -/
def sortByCreatedDesc : List Task → List Task
  | [] => []
  | t :: ts => insertDesc t (sortByCreatedDesc ts)

/-- The `pagination` object of the list response. -/
structure Pagination where
  current : Nat
  pages : Nat
  total : Nat
  limit : Nat
deriving DecidableEq, Repr

/-- Body of a successful list response: the page of tasks plus pagination
metadata. -/
structure ListResult where
  tasks : List Task
  pagination : Pagination
deriving DecidableEq, Repr

/-- Handler of `GET /tasks` (`router.get('/')`): build the filter, sort by `createdAt`
descending, apply `skip`/`limit`, and report `Math.ceil(total / limit)`
pages.  `Math.ceil` on the real quotient is `(total + limit - 1) / limit`
in `Nat` (the handler only runs with `limit ≥ 1`, enforced by
`validatePagination` / the default of 10). -/
def listTasks (db : DB) (c : Caller) (q : ListQuery) : ListResult :=
  let page := parseOr q.page 1
  let limit := parseOr q.limit 10
  let skip := (page - 1) * limit
  let filtered := db.tasks.filter (matchesFilter c q)
  let total := filtered.length
  { tasks := ((sortByCreatedDesc filtered).drop skip).take limit
    pagination :=
      { current := page
        pages := (total + limit - 1) / limit
        total := total
        limit := limit } }

/-- Outcome of `GET /tasks/:id`. -/
inductive GetResult
  | ok (t : Task)
  | notFound
  | forbidden
  | serverError
deriving DecidableEq, Repr

/-- HTTP status the get handler writes for each outcome. -/
def GetResult.httpStatus : GetResult → Nat
  | .ok _ => 200
  | .notFound => 404
  | .forbidden => 403
  | .serverError => 500

/-- Handler of `GET /tasks/:id` (`router.get('/:id')`).  The access check is
`req.user.role !== 'admin' && task.assignedTo._id ≠ me && task.createdBy._id ≠ me`
on the *populated* task, evaluated left to right with JS short-circuiting:
when a populated reference is `null` (dangling), reading `._id` throws and
the handler lands in its `catch` (HTTP 500). -/
def getTaskById (db : DB) (c : Caller) (id : Nat) : GetResult :=
  match findTask db id with
  | none => .notFound
  | some task =>
    if c.role == "admin" then .ok task
    else if userExists db task.assignedTo then
      if task.assignedTo == c.uid then .ok task
      else if userExists db task.createdBy then
        if task.createdBy == c.uid then .ok task else .forbidden
      else .serverError
    else .serverError

/-- Body of `POST /tasks` after `validateTaskCreation` (title and description
present; enum and date formats already checked, hence the typed fields). -/
structure CreatePayload where
  title : String
  description : String
  status : Option Status
  priority : Option Priority
  dueDate : Option Nat
  assignedTo : Option Nat
deriving Repr

/-- The length checks of `validateTaskCreation` on the free-text fields
(title 1–100 chars, description 1–500 chars, both after trimming). -/
def validTaskCreation (p : CreatePayload) : Bool :=
  1 ≤ p.title.length && p.title.length ≤ 100
    && 1 ≤ p.description.length && p.description.length ≤ 500

/-- Outcome of `POST /tasks`. -/
inductive CreateResult
  | created (t : Task)
  | badRef
  | serverError
deriving DecidableEq, Repr

/-- HTTP status the create handler writes for each outcome: 201 on success,
400 for `'Assigned user not found'`, 500 from the `catch` block. -/
def CreateResult.httpStatus : CreateResult → Nat
  | .created _ => 201
  | .badRef => 400
  | .serverError => 500

/-- Handler of `POST /tasks` (`router.post('/')`): if `assignedTo` is supplied it must
reference an existing user (else 400 before anything is written); the
assignee defaults to the caller; `status`/`priority` default to
`pending`/`medium`; `createdBy` is always the caller.  `task.save()` runs
the schema validators: the `dueDate` validator `!value || value > new Date()`
rejects a due date that is not strictly in the future, and that
`ValidationError` is swallowed by the handler's `catch` (HTTP 500). -/
def createTask (db : DB) (c : Caller) (p : CreatePayload) (newId now : Nat) :
    CreateResult × DB :=
  if p.assignedTo.any (fun a => !userExists db a) then
    (.badRef, db)
  else
    let task : Task :=
      { tid := newId
        title := p.title
        description := p.description
        status := p.status.getD .pending
        priority := p.priority.getD .medium
        dueDate := p.dueDate
        assignedTo := p.assignedTo.getD c.uid
        createdBy := c.uid
        createdAt := now
        updatedAt := now }
    if p.dueDate.any (fun d => d ≤ now) then
      (.serverError, db)
    else
      (.created task, { db with tasks := task :: db.tasks })

/-- Body of `PUT /tasks/:id` after `validateTaskUpdate`.  Every field is
optional; `validateTaskUpdate` whitelists nothing, so a `createdBy` key in
the JSON body travels through to `findByIdAndUpdate` untouched (it is a
schema path, so Mongoose `$set`s it). -/
structure UpdatePayload where
  title : Option String
  description : Option String
  status : Option Status
  priority : Option Priority
  dueDate : Option Nat
  assignedTo : Option Nat
  createdBy : Option Nat
deriving Repr

/-- Outcome of `PUT /tasks/:id`. -/
inductive UpdateResult
  | ok
  | notFound
  | forbidden
  | badRef
  | serverError
deriving DecidableEq, Repr

/-- HTTP status the update handler writes for each outcome. -/
def UpdateResult.httpStatus : UpdateResult → Nat
  | .ok => 200
  | .notFound => 404
  | .forbidden => 403
  | .badRef => 400
  | .serverError => 500

/-- The `$set` a `findByIdAndUpdate(id, req.body)` performs on one document:
supplied fields overwrite, omitted fields are untouched, and
`timestamps: true` stamps `updatedAt` with the time of the call. -/
def applyUpdate (t : Task) (p : UpdatePayload) (now : Nat) : Task :=
  { t with
    title := p.title.getD t.title
    description := p.description.getD t.description
    status := p.status.getD t.status
    priority := p.priority.getD t.priority
    dueDate := match p.dueDate with | none => t.dueDate | some d => some d
    assignedTo := p.assignedTo.getD t.assignedTo
    createdBy := p.createdBy.getD t.createdBy
    updatedAt := now }

/-- Handler of `PUT /tasks/:id` (`router.put('/:id')`): 404 if absent; 403 unless the
caller is admin, creator, or current assignee; if `assignedTo` is supplied
and differs from the current assignee it must reference an existing user
(else 400); then `findByIdAndUpdate(id, req.body, { new: true,
runValidators: true })`.  `runValidators` re-runs the `dueDate` schema
validator on a supplied `dueDate`, and a failure is caught as HTTP 500. -/
def updateTask (db : DB) (c : Caller) (id : Nat) (p : UpdatePayload) (now : Nat) :
    UpdateResult × DB :=
  match findTask db id with
  | none => (.notFound, db)
  | some task =>
    if c.role != "admin" && task.createdBy != c.uid && task.assignedTo != c.uid then
      (.forbidden, db)
    else if p.assignedTo.any (fun a => a != task.assignedTo && !userExists db a) then
      (.badRef, db)
    else if p.dueDate.any (fun d => d ≤ now) then
      (.serverError, db)
    else
      (.ok, { db with
              tasks := db.tasks.map (fun t => if t.tid == id then applyUpdate t p now else t) })

/-- Outcome of `DELETE /tasks/:id`. -/
inductive DeleteResult
  | ok
  | notFound
  | forbidden
deriving DecidableEq, Repr

/-- HTTP status the delete handler writes for each outcome. -/
def DeleteResult.httpStatus : DeleteResult → Nat
  | .ok => 200
  | .notFound => 404
  | .forbidden => 403

/-- Handler of `DELETE /tasks/:id` (`router.delete('/:id')`): 404 if absent; 403 unless
the caller is admin or the creator (`task.createdBy.toString() !== req.user._id`);
otherwise `findByIdAndDelete`. -/
def deleteTask (db : DB) (c : Caller) (id : Nat) : DeleteResult × DB :=
  match findTask db id with
  | none => (.notFound, db)
  | some task =>
    if c.role != "admin" && task.createdBy != c.uid then
      (.forbidden, db)
    else
      (.ok, { db with tasks := db.tasks.filter (fun t => t.tid != id) })

/-- The single `$group` document of `GET /tasks/stats/overview` (with the
all-zero default when the caller's visible set is empty — an empty
aggregation result). -/
structure Stats where
  total : Nat
  pending : Nat
  inProgress : Nat
  completed : Nat
  highPriority : Nat
  mediumPriority : Nat
  lowPriority : Nat
deriving DecidableEq, Repr

/-- Handler of `GET /tasks/stats/overview` (`router.get('/stats/overview')`): one
aggregation over the caller's visible set (`$match` on the same non-admin
`$or` filter as list), counting the total and the per-status and
per-priority buckets. -/
def statsOverview (db : DB) (c : Caller) : Stats :=
  let ts := db.tasks.filter (visibleTo c)
  { total := ts.length
    pending := (ts.filter (fun t => t.status == Status.pending)).length
    inProgress := (ts.filter (fun t => t.status == Status.inProgress)).length
    completed := (ts.filter (fun t => t.status == Status.completed)).length
    highPriority := (ts.filter (fun t => t.priority == Priority.high)).length
    mediumPriority := (ts.filter (fun t => t.priority == Priority.medium)).length
    lowPriority := (ts.filter (fun t => t.priority == Priority.low)).length }

/-! Helper lemmas about the sort used by the list handler. -/

/-- Membership is preserved by `insertDesc`. -/
theorem mem_insertDesc {t u : Task} {l : List Task} :
    u ∈ insertDesc t l ↔ u = t ∨ u ∈ l := by
  induction l with
  | nil => simp [insertDesc]
  | cons v vs ih =>
    rw [insertDesc]
    by_cases hc : v.createdAt ≤ t.createdAt
    · simp [hc]
    · simp [hc, ih]
      tauto

/-- Inserting is a permutation of consing. -/
theorem insertDesc_perm (t : Task) (l : List Task) : (insertDesc t l).Perm (t :: l) := by
  induction l with
  | nil => simp [insertDesc]
  | cons v vs ih =>
    rw [insertDesc]
    by_cases hc : v.createdAt ≤ t.createdAt
    · rw [if_pos hc]
    · rw [if_neg hc]
      exact (List.Perm.cons v ih).trans (List.Perm.swap t v vs)

/-- The sort is a permutation of its input. -/
theorem sortByCreatedDesc_perm (l : List Task) : (sortByCreatedDesc l).Perm l := by
  induction l with
  | nil => simp [sortByCreatedDesc]
  | cons t ts ih =>
    rw [sortByCreatedDesc]
    exact (insertDesc_perm t _).trans (List.Perm.cons t ih)

/-- Membership is preserved by the sort. -/
theorem mem_sortByCreatedDesc {u : Task} {l : List Task} :
    u ∈ sortByCreatedDesc l ↔ u ∈ l :=
  (sortByCreatedDesc_perm l).mem_iff

/-- Inserting into a descending-`createdAt` list keeps it descending. -/
theorem pairwise_insertDesc {t : Task} {l : List Task}
    (h : List.Pairwise (fun a b => b.createdAt ≤ a.createdAt) l) :
    List.Pairwise (fun a b => b.createdAt ≤ a.createdAt) (insertDesc t l) := by
  induction l with
  | nil => simp [insertDesc]
  | cons v vs ih =>
    rw [insertDesc]
    rcases List.pairwise_cons.mp h with ⟨hv, hvs⟩
    by_cases hc : v.createdAt ≤ t.createdAt
    · rw [if_pos hc]
      refine List.pairwise_cons.mpr ⟨?_, h⟩
      intro b hb
      rcases List.mem_cons.mp hb with rfl | hb
      · exact hc
      · exact le_trans (hv b hb) hc
    · rw [if_neg hc]
      refine List.pairwise_cons.mpr ⟨?_, ih hvs⟩
      intro b hb
      rcases mem_insertDesc.mp hb with rfl | hb
      · exact Nat.le_of_lt (Nat.lt_of_not_le hc)
      · exact hv b hb

/-- The sort produces a descending-`createdAt` list. -/
theorem pairwise_sortByCreatedDesc (l : List Task) :
    List.Pairwise (fun a b => b.createdAt ≤ a.createdAt) (sortByCreatedDesc l) := by
  induction l with
  | nil => simp [sortByCreatedDesc]
  | cons t ts ih =>
    rw [sortByCreatedDesc]
    exact pairwise_insertDesc ih

/-! Helper lemmas about ceiling division, as computed by
`Math.ceil(total / limit)` in the list handler. -/

/-- The reported page count covers all matching records. -/
theorem le_ceil_mul (total l : Nat) (hl : 1 ≤ l) :
    total ≤ (total + l - 1) / l * l := by
  have h := Nat.div_add_mod (total + l - 1) l
  have h2 : (total + l - 1) % l < l := Nat.mod_lt _ hl
  rw [Nat.mul_comm]
  generalize hP : l * ((total + l - 1) / l) = P at h ⊢
  omega

/-- The reported page count is the least that covers all matching records. -/
theorem ceil_le_of_le_mul (total l m : Nat) (hl : 1 ≤ l) (h : total ≤ m * l) :
    (total + l - 1) / l ≤ m := by
  rw [Nat.div_le_iff_le_mul_add_pred hl]
  rw [Nat.mul_comm] at h
  generalize hP : l * m = P at h ⊢
  omega

/-! Characterizations of the handlers, used by the claim theorems. -/

/-- A successful get found the task and, unless the caller is admin, the
caller is its assignee or its creator. -/
theorem getTaskById_ok_elim {db : DB} {c : Caller} {id : Nat} {t : Task}
    (h : getTaskById db c id = .ok t) :
    findTask db id = some t ∧
      (c.role = "admin" ∨ t.assignedTo = c.uid ∨ t.createdBy = c.uid) := by
  unfold getTaskById at h
  cases hfind : findTask db id with
  | none => simp only [hfind] at h; cases h
  | some task =>
    simp only [hfind] at h
    by_cases hadm : (c.role == "admin") = true
    · rw [if_pos hadm] at h
      cases h
      exact ⟨rfl, Or.inl (eq_of_beq hadm)⟩
    · rw [if_neg hadm] at h
      by_cases hae : userExists db task.assignedTo = true
      · rw [if_pos hae] at h
        by_cases haq : (task.assignedTo == c.uid) = true
        · rw [if_pos haq] at h
          cases h
          exact ⟨rfl, Or.inr (Or.inl (eq_of_beq haq))⟩
        · rw [if_neg haq] at h
          by_cases hce : userExists db task.createdBy = true
          · rw [if_pos hce] at h
            by_cases hcq : (task.createdBy == c.uid) = true
            · rw [if_pos hcq] at h
              cases h
              exact ⟨rfl, Or.inr (Or.inr (eq_of_beq hcq))⟩
            · rw [if_neg hcq] at h; cases h
          · rw [if_neg hce] at h; cases h
      · rw [if_neg hae] at h; cases h

/-- The permission condition of the update handler, spelled as the source
spells it (`role !== 'admin' && createdBy !== me && assignedTo !== me`),
is false exactly when the caller is admin, creator, or assignee. -/
theorem update_guard_false_iff (c : Caller) (task : Task) :
    ((c.role != "admin" && task.createdBy != c.uid && task.assignedTo != c.uid) = false
      ↔ (c.role = "admin" ∨ task.createdBy = c.uid ∨ task.assignedTo = c.uid)) := by
  constructor
  · intro h
    rcases Bool.and_eq_false_iff.mp h with h1 | h2
    · rcases Bool.and_eq_false_iff.mp h1 with ha | hb
      · exact Or.inl (by simpa using ha)
      · exact Or.inr (Or.inl (by simpa using hb))
    · exact Or.inr (Or.inr (by simpa using h2))
  · intro h
    rcases h with h | h | h <;> simp [h]

/-- A successful update rewrites the matching documents with the `$set` of
the request body and leaves the user collection alone. -/
theorem updateTask_ok_elim {db : DB} {c : Caller} {id : Nat} {p : UpdatePayload} {now : Nat}
    (h : (updateTask db c id p now).1 = .ok) :
    (updateTask db c id p now).2
      = { db with
          tasks := db.tasks.map (fun t => if t.tid == id then applyUpdate t p now else t) } := by
  unfold updateTask at h ⊢
  cases hfind : findTask db id with
  | none => simp only [hfind] at h; cases h
  | some task =>
    simp only [hfind] at h
    dsimp only
    by_cases h1 : (c.role != "admin" && task.createdBy != c.uid && task.assignedTo != c.uid) = true
    · rw [if_pos h1] at h; cases h
    · rw [if_neg h1] at h ⊢
      by_cases h2 : p.assignedTo.any (fun a => a != task.assignedTo && !userExists db a) = true
      · rw [if_pos h2] at h; cases h
      · rw [if_neg h2] at h ⊢
        by_cases h3 : p.dueDate.any (fun d => d ≤ now) = true
        · rw [if_pos h3] at h; cases h
        · rw [if_neg h3]

/-- Applying the same `$set` twice only refreshes `updatedAt` the second
time: every supplied field already holds the supplied value. -/
theorem applyUpdate_applyUpdate (t : Task) (p : UpdatePayload) (t1 t2 : Nat) :
    applyUpdate (applyUpdate t p t1) p t2
      = { applyUpdate t p t1 with updatedAt := t2 } := by
  unfold applyUpdate
  cases p with
  | mk title description status priority dueDate assignedTo createdBy =>
    cases title <;> cases description <;> cases status <;> cases priority <;>
      cases dueDate <;> cases assignedTo <;> cases createdBy <;> rfl

/-- A `$set` of the update body never moves a document's id. -/
theorem applyUpdate_tid (t : Task) (p : UpdatePayload) (now : Nat) :
    (applyUpdate t p now).tid = t.tid := rfl

/-! Claim theorems. -/

/-- C1: for every non-admin authenticated caller and every stored task set,
the list handler and the get-by-id handler never return (with success) a
task in which the caller is neither the assignee nor the creator, for every
combination of status/priority/assignedTo query filters (and any
page/limit). -/
theorem nonadmin_never_sees_foreign_tasks (db : DB) (c : Caller) (q : ListQuery)
    (id : Nat) (hna : c.role ≠ "admin") :
    (∀ t ∈ (listTasks db c q).tasks, t.assignedTo = c.uid ∨ t.createdBy = c.uid) ∧
    (∀ t, getTaskById db c id = .ok t → t.assignedTo = c.uid ∨ t.createdBy = c.uid) := by
  constructor
  · intro t ht
    have h2 : t ∈ sortByCreatedDesc (db.tasks.filter (matchesFilter c q)) :=
      List.mem_of_mem_drop (List.mem_of_mem_take ht)
    have h3 : t ∈ db.tasks.filter (matchesFilter c q) := mem_sortByCreatedDesc.mp h2
    have h4 : matchesFilter c q t = true := List.of_mem_filter h3
    have h5 : visibleTo c t = true := by
      simp only [matchesFilter, Bool.and_eq_true] at h4
      exact h4.1.1.1
    have hb : (c.role == "admin") = false := by
      simp only [beq_eq_false_iff_ne, ne_eq]
      exact hna
    simp only [visibleTo, hb, Bool.false_or, Bool.or_eq_true, beq_iff_eq] at h5
    exact h5
  · intro t hok
    rcases getTaskById_ok_elim hok with ⟨-, h | h | h⟩
    · exact absurd h hna
    · exact Or.inl h
    · exact Or.inr h

/-- Fixture for the C1 witness: one task assigned to user 10 and created by
user 20, both existing; the caller is user 10, a non-admin. -/
def w1db : DB := ⟨[⟨1, "a", "b", .pending, .medium, none, 10, 20, 0, 0⟩], [10, 20]⟩

/-- Caller of the C1 witness. -/
def w1c : Caller := ⟨10, "user"⟩

/-- Query of the C1 witness. -/
def w1q : ListQuery := ⟨some 1, some 10, none, none, none⟩

/-- The task of the C1 witness store. -/
def w1task : Task := ⟨1, "a", "b", .pending, .medium, none, 10, 20, 0, 0⟩

/-- Witness for the C1 theorem: at the concrete fixture, the task returned
by get-by-id is owned by the caller. -/
theorem nonadmin_never_sees_foreign_tasks_witness :
    w1task.assignedTo = w1c.uid ∨ w1task.createdBy = w1c.uid :=
  (nonadmin_never_sees_foreign_tasks w1db w1c w1q 1 (by decide)).2 w1task (by decide)

/-- C2: for every caller and every existing task, delete succeeds (and the
task is gone afterwards) exactly when the caller is admin or the creator; an
assignee-only caller receives 403 and the store is unchanged. -/
theorem delete_only_admin_or_creator (db : DB) (c : Caller) (id : Nat) (task : Task)
    (hfind : findTask db id = some task) :
    ((deleteTask db c id).1 = .ok ↔ (c.role = "admin" ∨ task.createdBy = c.uid)) ∧
    ((deleteTask db c id).1 = .ok → findTask (deleteTask db c id).2 id = none) ∧
    ((c.role ≠ "admin" ∧ task.createdBy ≠ c.uid) →
      deleteTask db c id = (.forbidden, db)) := by
  unfold deleteTask
  simp only [hfind]
  by_cases hg : (c.role != "admin" && task.createdBy != c.uid) = true
  · rw [if_pos hg]
    dsimp only
    have hg2 : c.role ≠ "admin" ∧ task.createdBy ≠ c.uid := by
      simp only [Bool.and_eq_true, bne_iff_ne] at hg
      exact hg
    refine ⟨?_, ?_, ?_⟩
    · constructor
      · intro h
        simp at h
      · intro h
        rcases h with h | h
        · exact absurd h hg2.1
        · exact absurd h hg2.2
    · intro h
      simp at h
    · intro _
      rfl
  · rw [if_neg hg]
    dsimp only
    have hg2 : c.role = "admin" ∨ task.createdBy = c.uid := by
      rcases Bool.and_eq_false_iff.mp (Bool.eq_false_iff.mpr hg) with h | h
      · exact Or.inl (by simpa using h)
      · exact Or.inr (by simpa using h)
    refine ⟨⟨fun _ => hg2, fun _ => rfl⟩, fun _ => ?_, fun hcontra => ?_⟩
    · unfold findTask
      dsimp only
      rw [List.find?_eq_none]
      intro x hx
      have hxne := List.of_mem_filter hx
      simp only [bne_iff_ne, ne_eq] at hxne
      simp only [beq_iff_eq]
      exact hxne
    · rcases hg2 with h | h
      · exact absurd h hcontra.1
      · exact absurd h hcontra.2

/-- Fixture for the C2 witness: the caller (user 10) is assignee but not
creator of the stored task. -/
def w2db : DB := ⟨[⟨1, "a", "b", .pending, .medium, none, 10, 20, 0, 0⟩], [10, 20]⟩

/-- Witness for the C2 theorem: the assignee-only caller gets 403 and the
store is untouched. -/
theorem delete_only_admin_or_creator_witness :
    deleteTask w2db ⟨10, "user"⟩ 1 = (.forbidden, w2db) :=
  (delete_only_admin_or_creator w2db ⟨10, "user"⟩ 1
      ⟨1, "a", "b", .pending, .medium, none, 10, 20, 0, 0⟩ (by decide)).2.2
    ⟨by decide, by decide⟩

/-- C3: for every caller and every existing task, the update handler gets
past the permission check when the caller is admin, creator, or current
assignee (and succeeds outright on a valid payload); any other caller gets
403 with the store unchanged. -/
theorem update_admin_creator_or_assignee (db : DB) (c : Caller) (id : Nat)
    (p : UpdatePayload) (now : Nat) (task : Task) (hfind : findTask db id = some task) :
    ((c.role = "admin" ∨ task.createdBy = c.uid ∨ task.assignedTo = c.uid) →
        (updateTask db c id p now).1 ≠ .forbidden) ∧
    ((c.role = "admin" ∨ task.createdBy = c.uid ∨ task.assignedTo = c.uid) →
      (∀ a, p.assignedTo = some a → a = task.assignedTo ∨ userExists db a = true) →
      (∀ d, p.dueDate = some d → now < d) →
        (updateTask db c id p now).1 = .ok) ∧
    (c.role ≠ "admin" → task.createdBy ≠ c.uid → task.assignedTo ≠ c.uid →
        updateTask db c id p now = (.forbidden, db)) := by
  unfold updateTask
  simp only [hfind]
  by_cases h1 : (c.role != "admin" && task.createdBy != c.uid && task.assignedTo != c.uid) = true
  · rw [if_pos h1]
    have h1' : c.role ≠ "admin" ∧ task.createdBy ≠ c.uid ∧ task.assignedTo ≠ c.uid := by
      simp only [Bool.and_eq_true, bne_iff_ne] at h1
      exact ⟨h1.1.1, h1.1.2, h1.2⟩
    refine ⟨fun hperm => ?_, fun hperm _ _ => ?_, fun _ _ _ => rfl⟩
    · rcases hperm with h | h | h
      · exact absurd h h1'.1
      · exact absurd h h1'.2.1
      · exact absurd h h1'.2.2
    · rcases hperm with h | h | h
      · exact absurd h h1'.1
      · exact absurd h h1'.2.1
      · exact absurd h h1'.2.2
  · rw [if_neg h1]
    have hperm' := (update_guard_false_iff c task).mp (Bool.eq_false_iff.mpr h1)
    refine ⟨fun _ => ?_, fun _ hassign hdue => ?_, fun ha hb hc => ?_⟩
    · by_cases h2 : p.assignedTo.any (fun a => a != task.assignedTo && !userExists db a) = true
      · rw [if_pos h2]; intro h; cases h
      · rw [if_neg h2]
        by_cases h3 : p.dueDate.any (fun d => d ≤ now) = true
        · rw [if_pos h3]; intro h; cases h
        · rw [if_neg h3]; intro h; cases h
    · have h2 : p.assignedTo.any (fun a => a != task.assignedTo && !userExists db a) = false := by
        cases hpa : p.assignedTo with
        | none => rfl
        | some a =>
          simp only [Option.any_some]
          rcases hassign a hpa with h | h
          · simp [h]
          · simp [h]
      have h3 : p.dueDate.any (fun d => d ≤ now) = false := by
        cases hpd : p.dueDate with
        | none => rfl
        | some d =>
          simp only [Option.any_some, decide_eq_false_iff_not]
          have := hdue d hpd
          omega
      rw [if_neg (by simp [h2]), if_neg (by simp [h3])]
    · rcases hperm' with h | h | h
      · exact absurd h ha
      · exact absurd h hb
      · exact absurd h hc

/-- Fixture for the C3 witness: the caller (user 20) is the creator of the
stored task and flips its status. -/
def w3db : DB := ⟨[⟨1, "a", "b", .pending, .medium, none, 10, 20, 0, 0⟩], [10, 20]⟩

/-- Payload of the C3 witness: set status to completed. -/
def w3p : UpdatePayload := ⟨none, none, some .completed, none, none, none, none⟩

/-- Witness for the C3 theorem: the creator's valid update succeeds. -/
theorem update_admin_creator_or_assignee_witness :
    (updateTask w3db ⟨20, "user"⟩ 1 w3p 5).1 = .ok :=
  (update_admin_creator_or_assignee w3db ⟨20, "user"⟩ 1 w3p 5
      ⟨1, "a", "b", .pending, .medium, none, 10, 20, 0, 0⟩ (by decide)).2.1
    (Or.inr (Or.inl (by decide)))
    (fun a ha => by simp [w3p] at ha)
    (fun d hd => by simp [w3p] at hd)

/-- Helper for C8: the three status buckets partition any task list, since
the schema enum admits exactly the three statuses. -/
theorem status_counts_sum (ts : List Task) :
    (ts.filter (fun t => t.status == Status.pending)).length
      + (ts.filter (fun t => t.status == Status.inProgress)).length
      + (ts.filter (fun t => t.status == Status.completed)).length = ts.length := by
  induction ts with
  | nil => rfl
  | cons t ts ih =>
    cases h : t.status <;> simp [List.filter_cons, h] <;> omega

/-- C8: for every caller and every store, the stats overview satisfies
pending + inProgress + completed = total over the caller's visible set. -/
theorem stats_overview_sum (db : DB) (c : Caller) :
    (statsOverview db c).pending + (statsOverview db c).inProgress
      + (statsOverview db c).completed = (statsOverview db c).total := by
  simp only [statsOverview]
  exact status_counts_sum _

/-- Fixture for C4: one task created by user 10 (who is also the caller);
user 99 exists as well. -/
def c4db : DB := ⟨[⟨1, "a", "b", .pending, .medium, none, 10, 10, 0, 0⟩], [10, 99]⟩

/-- The C4 payload: a JSON body whose only key is `createdBy`.
`validateTaskUpdate` checks nothing about it (it whitelists no fields), so
it reaches `findByIdAndUpdate` intact. -/
def c4payload : UpdatePayload := ⟨none, none, none, none, none, none, some 99⟩

/-- C4 (bug evidence): the update handler passes `req.body` wholesale to
`findByIdAndUpdate`, so a payload carrying a `createdBy` key overwrites the
creator — contradicting the create handler, which deliberately ignores any
client-sent creator and stamps the caller.  Here the creator moves from 10
to 99 through an otherwise ordinary authorized update. -/
theorem update_overwrites_createdBy :
    ((updateTask c4db ⟨10, "user"⟩ 1 c4payload 5).1 = .ok) ∧
    ((findTask c4db 1).map Task.createdBy = some 10) ∧
    ((findTask (updateTask c4db ⟨10, "user"⟩ 1 c4payload 5).2 1).map Task.createdBy
        = some 99) := by
  decide

/-- C5: a create whose `assignedTo` names a nonexistent user, and an
authorized update that changes `assignedTo` to a nonexistent user, are both
rejected with the 400 bad-reference response (not a 500), leaving the store
untouched. -/
theorem nonexistent_assignee_rejected (db : DB) (c : Caller) (p : CreatePayload)
    (newId now : Nat) (id : Nat) (q : UpdatePayload) (now2 : Nat) :
    (∀ a, p.assignedTo = some a → userExists db a = false →
        createTask db c p newId now = (.badRef, db)) ∧
    (∀ task a, findTask db id = some task →
        (c.role = "admin" ∨ task.createdBy = c.uid ∨ task.assignedTo = c.uid) →
        q.assignedTo = some a → a ≠ task.assignedTo → userExists db a = false →
        updateTask db c id q now2 = (.badRef, db)) ∧
    CreateResult.badRef.httpStatus = 400 ∧ UpdateResult.badRef.httpStatus = 400 := by
  refine ⟨?_, ?_, rfl, rfl⟩
  · intro a hpa hne
    unfold createTask
    have hguard : p.assignedTo.any (fun a => !userExists db a) = true := by
      rw [hpa]
      simp [hne]
    rw [if_pos hguard]
  · intro task a hfind hperm hqa hane hne
    unfold updateTask
    simp only [hfind]
    have hg : (c.role != "admin" && task.createdBy != c.uid && task.assignedTo != c.uid)
        = false := (update_guard_false_iff c task).mpr hperm
    rw [if_neg (by simp [hg])]
    have h2 : q.assignedTo.any (fun x => x != task.assignedTo && !userExists db x) = true := by
      rw [hqa]
      simp [hane, hne]
    rw [if_pos h2]

/-- Fixture store for the C5 witness: only user 10 exists. -/
def w5db : DB := ⟨[⟨1, "a", "b", .pending, .medium, none, 10, 10, 0, 0⟩], [10]⟩

/-- Create payload of the C5 witness, assigning to the nonexistent user 77. -/
def w5p : CreatePayload := ⟨"t", "d", none, none, none, some 77⟩

/-- Update payload of the C5 witness, reassigning to the nonexistent user 77. -/
def w5q : UpdatePayload := ⟨none, none, none, none, none, some 77, none⟩

/-- Witness for the C5 theorem: both the create and the authorized update
aimed at nonexistent user 77 come back 400 with the store unchanged. -/
theorem nonexistent_assignee_rejected_witness :
    createTask w5db ⟨10, "user"⟩ w5p 2 0 = (.badRef, w5db) ∧
    updateTask w5db ⟨10, "user"⟩ 1 w5q 0 = (.badRef, w5db) := by
  have h := nonexistent_assignee_rejected w5db ⟨10, "user"⟩ w5p 2 0 1 w5q 0
  exact ⟨h.1 77 rfl (by decide),
    h.2.1 ⟨1, "a", "b", .pending, .medium, none, 10, 10, 0, 0⟩ 77 (by decide)
      (Or.inr (Or.inl (by decide))) rfl (by decide) (by decide)⟩

/-- Counterexample to C6 as stated: a create request whose `dueDate` (3) is
not in the future at creation time (5) is rejected through the handler's
generic `catch` with the 500 server-error response — not the 400
validation-error shape the claim names — though indeed nothing is stored. -/
theorem past_dueDate_create_returns_500 :
    createTask ⟨[], [10]⟩ ⟨10, "user"⟩ ⟨"t", "d", none, none, some 3, none⟩ 7 5
        = (.serverError, ⟨[], [10]⟩) ∧
    CreateResult.serverError.httpStatus = 500 ∧
    CreateResult.serverError.httpStatus ≠ 400 := by
  decide

/-- C6 (amended): a create-task request whose `dueDate` is not strictly in
the future is rejected — but via the Mongoose schema validator whose
`ValidationError` the handler's `catch` converts to the 500 server-error
response, not the 400 validation-error shape — and no task is stored; an
otherwise-valid create with no `dueDate` succeeds and stores the task. -/
theorem past_dueDate_rejected_as_500 (db : DB) (c : Caller) (p : CreatePayload)
    (newId now : Nat) :
    (∀ d, p.dueDate = some d → d ≤ now →
      (∀ a, p.assignedTo = some a → userExists db a = true) →
      createTask db c p newId now = (.serverError, db) ∧
        (createTask db c p newId now).1.httpStatus = 500) ∧
    (p.dueDate = none → validTaskCreation p = true →
      (∀ a, p.assignedTo = some a → userExists db a = true) →
      ∃ t, createTask db c p newId now = (.created t, { db with tasks := t :: db.tasks })
            ∧ t.dueDate = none ∧ t.createdBy = c.uid) := by
  have hguard : (∀ a, p.assignedTo = some a → userExists db a = true) →
      p.assignedTo.any (fun a => !userExists db a) = false := by
    intro hex
    cases hpa : p.assignedTo with
    | none => rfl
    | some a =>
      simp only [Option.any_some]
      simp [hex a hpa]
  constructor
  · intro d hpd hdle hex
    unfold createTask
    rw [if_neg (by simp [hguard hex])]
    have hdue : p.dueDate.any (fun x => x ≤ now) = true := by
      rw [hpd]
      simp [hdle]
    rw [if_pos hdue]
    exact ⟨rfl, rfl⟩
  · intro hpd _ hex
    unfold createTask
    rw [if_neg (by simp [hguard hex])]
    have hdue : p.dueDate.any (fun x => x ≤ now) = false := by
      rw [hpd]
      rfl
    rw [if_neg (by simp [hdue])]
    exact ⟨_, rfl, by simp [hpd], rfl⟩

/-- Fixture payload for the C6 witness: no due date, assignee omitted. -/
def w6p : CreatePayload := ⟨"t", "d", none, none, none, none⟩

/-- Witness for the C6 amended theorem: with a past due date the concrete
create comes back 500 and unchanged; without a due date it succeeds. -/
theorem past_dueDate_rejected_as_500_witness :
    createTask ⟨[], [10]⟩ ⟨10, "user"⟩ ⟨"t", "d", none, none, some 2, none⟩ 7 9
        = (.serverError, ⟨[], [10]⟩) ∧
    (∃ t, createTask ⟨[], [10]⟩ ⟨10, "user"⟩ w6p 7 9
        = (.created t, { tasks := [t], users := [10] }) ∧ t.dueDate = none
          ∧ t.createdBy = 10) := by
  have h1 := (past_dueDate_rejected_as_500 ⟨[], [10]⟩ ⟨10, "user"⟩
      ⟨"t", "d", none, none, some 2, none⟩ 7 9).1 2 rfl (by decide)
      (fun a ha => by simp at ha)
  have h2 := (past_dueDate_rejected_as_500 ⟨[], [10]⟩ ⟨10, "user"⟩ w6p 7 9).2
      rfl (by decide) (fun a ha => by simp [w6p] at ha)
  exact ⟨h1.1, h2⟩

/-- Helper: a positive supplied page or limit survives the JS falsy-default
(`parseInt(x) || d`). -/
theorem parseOr_some_pos {n : Nat} (d : Nat) (h : 1 ≤ n) : parseOr (some n) d = n := by
  have h0 : (n == 0) = false := by
    simp only [beq_eq_false_iff_ne, ne_eq]
    omega
  simp [parseOr, h0]

/-- C7: for a validated page `p` and limit `l`, the list response echoes
`current = p`, `limit = l`, reports the total of matching records and
`pages = ceil(total / l)` (stated by its defining property: the least page
count covering the total), and its items are positions `(p-1)*l`, ... of
the filtered set sorted by `createdAt` descending (the sort being a
descending permutation of the filtered set). -/
theorem list_pagination_correct (db : DB) (c : Caller) (q : ListQuery) (p l : Nat)
    (hp : q.page = some p) (hp1 : 1 ≤ p) (hl : q.limit = some l) (hl1 : 1 ≤ l)
    (hl2 : l ≤ 100) :
    (listTasks db c q).pagination.current = p ∧
    (listTasks db c q).pagination.limit = l ∧
    (listTasks db c q).pagination.total = (db.tasks.filter (matchesFilter c q)).length ∧
    ((db.tasks.filter (matchesFilter c q)).length ≤ (listTasks db c q).pagination.pages * l ∧
      ∀ m, (db.tasks.filter (matchesFilter c q)).length ≤ m * l →
        (listTasks db c q).pagination.pages ≤ m) ∧
    (sortByCreatedDesc (db.tasks.filter (matchesFilter c q))).Perm
      (db.tasks.filter (matchesFilter c q)) ∧
    List.Pairwise (fun a b => b.createdAt ≤ a.createdAt)
      (sortByCreatedDesc (db.tasks.filter (matchesFilter c q))) ∧
    (listTasks db c q).tasks.length
      = min l ((db.tasks.filter (matchesFilter c q)).length - (p - 1) * l) ∧
    (∀ i, (hi : i < (listTasks db c q).tasks.length) →
      ∃ hj : (p - 1) * l + i
          < (sortByCreatedDesc (db.tasks.filter (matchesFilter c q))).length,
        (listTasks db c q).tasks.get ⟨i, hi⟩
          = (sortByCreatedDesc (db.tasks.filter (matchesFilter c q))).get
              ⟨(p - 1) * l + i, hj⟩) := by
  have e1 : parseOr q.page 1 = p := by rw [hp]; exact parseOr_some_pos 1 hp1
  have e2 : parseOr q.limit 10 = l := by rw [hl]; exact parseOr_some_pos 10 hl1
  simp only [listTasks, e1, e2]
  refine ⟨trivial, trivial, trivial, ⟨le_ceil_mul _ _ hl1, fun m hm => ceil_le_of_le_mul _ _ _ hl1 hm⟩,
    sortByCreatedDesc_perm _, pairwise_sortByCreatedDesc _, ?_, ?_⟩
  · rw [List.length_take, List.length_drop,
      (sortByCreatedDesc_perm (db.tasks.filter (matchesFilter c q))).length_eq]
  · intro i hi
    have hi' : i < min l
        ((sortByCreatedDesc (db.tasks.filter (matchesFilter c q))).length - (p - 1) * l) := by
      simpa using hi
    have hj : (p - 1) * l + i
        < (sortByCreatedDesc (db.tasks.filter (matchesFilter c q))).length := by
      omega
    refine ⟨hj, ?_⟩
    simp [List.get_eq_getElem, e1, e2]

/-- Fixture for the C7 witness: 25 stored tasks, an admin caller (so all 25
match), page 3, limit 10. -/
def w7db : DB :=
  ⟨(List.range 25).map (fun i => ⟨i, "a", "b", .pending, .medium, none, 10, 10, i, i⟩), [10]⟩

/-- Caller of the C7 witness. -/
def w7c : Caller := ⟨1, "admin"⟩

/-- Query of the C7 witness. -/
def w7q : ListQuery := ⟨some 3, some 10, none, none, none⟩

/-- Witness for the C7 theorem: limit 10 against 25 matches yields 3 pages,
page 3 holds exactly 5 records, and `current` echoes 3. -/
theorem list_pagination_correct_witness :
    (listTasks w7db w7c w7q).pagination.pages = 3 ∧
    (listTasks w7db w7c w7q).tasks.length = 5 ∧
    (listTasks w7db w7c w7q).pagination.current = 3 := by
  have h := list_pagination_correct w7db w7c w7q 3 10 rfl (by decide) rfl (by decide)
    (by decide)
  have htot : (w7db.tasks.filter (matchesFilter w7c w7q)).length = 25 := by decide
  refine ⟨?_, ?_, h.1⟩
  · have h4 := h.2.2.2.1
    rw [htot] at h4
    have hub := h4.2 3 (by omega)
    have hlb := h4.1
    omega
  · have h7 := h.2.2.2.2.2.2.1
    rw [htot] at h7
    rw [h7]
    decide

/-- Fixture for C9: one task whose creator is the caller (user 10). -/
def c9db : DB := ⟨[⟨1, "a", "b", .pending, .medium, none, 10, 10, 0, 0⟩], [10]⟩

/-- The C9 payload: set status to completed. -/
def c9p : UpdatePayload := ⟨none, none, some .completed, none, none, none, none⟩

/-- Counterexample to C9 as stated: the identical payload applied at times 1
and 2 (both calls succeeding) leaves different stored states — the second
call refreshes `updatedAt` (Mongoose `timestamps: true`), so repeating an
update is not literally idempotent on the stored record. -/
theorem update_twice_changes_updatedAt :
    ((updateTask c9db ⟨10, "user"⟩ 1 c9p 1).1 = .ok) ∧
    ((updateTask (updateTask c9db ⟨10, "user"⟩ 1 c9p 1).2 ⟨10, "user"⟩ 1 c9p 2).1 = .ok) ∧
    (updateTask (updateTask c9db ⟨10, "user"⟩ 1 c9p 1).2 ⟨10, "user"⟩ 1 c9p 2).2
      ≠ (updateTask c9db ⟨10, "user"⟩ 1 c9p 1).2 := by
  decide

/-- C9 (amended): repeating an identical update payload twice (both calls
succeeding) changes nothing in the store the second time except the
`timestamps: true` refresh of `updatedAt` to the second call's time; every
domain field of every document is untouched. -/
theorem update_idempotent_except_updatedAt (db : DB) (c : Caller) (id : Nat)
    (p : UpdatePayload) (t1 t2 : Nat)
    (h1 : (updateTask db c id p t1).1 = .ok)
    (h2 : (updateTask (updateTask db c id p t1).2 c id p t2).1 = .ok) :
    (updateTask (updateTask db c id p t1).2 c id p t2).2.tasks
      = (updateTask db c id p t1).2.tasks.map
          (fun t => if t.tid == id then { t with updatedAt := t2 } else t) := by
  have e2 := updateTask_ok_elim h2
  have e1 := updateTask_ok_elim h1
  rw [e2, e1]
  dsimp only
  simp only [List.map_map]
  apply List.map_congr_left
  intro t _
  by_cases ht : (t.tid == id) = true
  · have htid : ((applyUpdate t p t1).tid == id) = true := by
      rw [applyUpdate_tid]
      exact ht
    simp only [Function.comp_apply, if_pos ht, if_pos htid]
    exact applyUpdate_applyUpdate t p t1 t2
  · simp only [Function.comp_apply, if_neg ht]

/-- Witness for the C9 amended theorem at the concrete fixture: the second
identical update only rewrites `updatedAt`. -/
theorem update_idempotent_except_updatedAt_witness :
    (updateTask (updateTask c9db ⟨10, "user"⟩ 1 c9p 3).2 ⟨10, "user"⟩ 1 c9p 4).2.tasks
      = (updateTask c9db ⟨10, "user"⟩ 1 c9p 3).2.tasks.map
          (fun t => if t.tid == 1 then { t with updatedAt := 4 } else t) :=
  update_idempotent_except_updatedAt c9db ⟨10, "user"⟩ 1 c9p 3 4 (by decide) (by decide)

/-- Fixture for the C10 counterexample: the stored task's creator (99) no
longer exists; the caller (10) is the assignee and exists. -/
def c10db : DB := ⟨[⟨1, "a", "b", .pending, .medium, none, 10, 99, 0, 0⟩], [10]⟩

/-- Counterexample to C10 as stated: a task whose `createdBy` reference is
dangling is fetched by its non-admin assignee with a 200 — the JS access
check short-circuits on `assignedTo._id === me` and never dereferences the
dangling creator, so a dangling reference does not always reach the 500
branch. -/
theorem dangling_creator_can_still_return_200 :
    userExists c10db 99 = false ∧
    getTaskById c10db ⟨10, "user"⟩ 1
      = .ok ⟨1, "a", "b", .pending, .medium, none, 10, 99, 0, 0⟩ ∧
    (getTaskById c10db ⟨10, "user"⟩ 1).httpStatus = 200 := by
  decide

/-- C10 (amended): for a non-admin caller and an existing task, get-by-id
reaches the 500 branch exactly when the populated `assignedTo` is dangling,
or `assignedTo` resolves to a user other than the caller and `createdBy` is
dangling; when `assignedTo` is the caller, a dangling `createdBy` is never
dereferenced (short-circuit) and the request can still succeed. -/
theorem get_serverError_iff_dangling (db : DB) (c : Caller) (id : Nat) (task : Task)
    (hna : c.role ≠ "admin") (hfind : findTask db id = some task) :
    (getTaskById db c id = .serverError ↔
      (userExists db task.assignedTo = false ∨
        (task.assignedTo ≠ c.uid ∧ userExists db task.createdBy = false))) := by
  unfold getTaskById
  simp only [hfind]
  have hb : (c.role == "admin") = false := by
    simp only [beq_eq_false_iff_ne, ne_eq]
    exact hna
  rw [if_neg (by simp [hb])]
  by_cases hae : userExists db task.assignedTo = true
  · rw [if_pos hae]
    by_cases haq : (task.assignedTo == c.uid) = true
    · rw [if_pos haq]
      constructor
      · intro h; cases h
      · rintro (h | h)
        · rw [hae] at h; cases h
        · exact absurd (eq_of_beq haq) h.1
    · rw [if_neg haq]
      by_cases hce : userExists db task.createdBy = true
      · rw [if_pos hce]
        by_cases hcq : (task.createdBy == c.uid) = true
        · rw [if_pos hcq]
          constructor
          · intro h; cases h
          · rintro (h | h)
            · rw [hae] at h; cases h
            · rw [hce] at h; exact absurd h.2 (by simp)
        · rw [if_neg hcq]
          constructor
          · intro h; cases h
          · rintro (h | h)
            · rw [hae] at h; cases h
            · rw [hce] at h; exact absurd h.2 (by simp)
      · rw [if_neg hce]
        constructor
        · intro _
          right
          refine ⟨fun heq => haq (by simp [heq]), Bool.eq_false_iff.mpr hce⟩
        · intro _; rfl
  · rw [if_neg hae]
    constructor
    · intro _
      left
      exact Bool.eq_false_iff.mpr hae
    · intro _; rfl

/-- Fixture for the C10 witness: the stored task's assignee (55) no longer
exists; the caller (10) is the creator. -/
def w10db : DB := ⟨[⟨1, "a", "b", .pending, .medium, none, 55, 10, 0, 0⟩], [10]⟩

/-- Witness for the C10 amended theorem: with a dangling assignee even the
creator's own fetch lands in the 500 branch. -/
theorem get_serverError_iff_dangling_witness :
    getTaskById w10db ⟨10, "user"⟩ 1 = .serverError :=
  (get_serverError_iff_dangling w10db ⟨10, "user"⟩ 1
      ⟨1, "a", "b", .pending, .medium, none, 55, 10, 0, 0⟩ (by decide) (by decide)).mpr
    (Or.inl (by decide))

end ScalableApi
